import Mathlib

/-!
Verification model of `src/lead_generator.py` (class `LeadGenerator` and the
pipeline wired up in `create_streamlit_app`).

Embedding conventions:
* JSON values (the results of `json.loads`) are the inductive type `Json`;
  JSON numbers are modelled exactly as rationals (Python distinguishes
  `int`/`float`; no claim depends on that distinction or on float rounding).
* The inference client (`client.chat.completions.create`) is an opaque
  external collaborator; a stage that calls it is modelled as a function of
  the call's outcome `Except String String` (`.ok completion` or
  `.error message` for any raised exception).
* Streamlit calls (`st.write`, progress bars, `st.error`) are UI effects with
  no data flow into the pipeline and are not modelled.
* A Python function that catches all exceptions and returns a value is a
  total Lean function; a code path on which the Python function itself
  propagates an exception is modelled as `none` / a failure constructor.
-/

namespace LeadGen

/-- JSON values, the codomain of the model of `json.loads`.  Objects are
association lists in insertion order with unique keys (matching `dict`). -/
inductive Json where
  | null : Json
  | bool : Bool → Json
  | num : ℚ → Json
  | str : String → Json
  | arr : List Json → Json
  | obj : List (String × Json) → Json

mutual

/-- Decidable equality for `Json` (the `deriving` handler does not support
nested inductives, so it is spelled out). -/
def Json.decEq : (a b : Json) → Decidable (a = b)
  | .null, .null => .isTrue rfl
  | .null, .bool _ => .isFalse (fun h => Json.noConfusion h)
  | .null, .num _ => .isFalse (fun h => Json.noConfusion h)
  | .null, .str _ => .isFalse (fun h => Json.noConfusion h)
  | .null, .arr _ => .isFalse (fun h => Json.noConfusion h)
  | .null, .obj _ => .isFalse (fun h => Json.noConfusion h)
  | .bool _, .null => .isFalse (fun h => Json.noConfusion h)
  | .bool x, .bool y =>
    if h : x = y then .isTrue (by rw [h])
    else .isFalse (fun hh => h (Json.bool.inj hh))
  | .bool _, .num _ => .isFalse (fun h => Json.noConfusion h)
  | .bool _, .str _ => .isFalse (fun h => Json.noConfusion h)
  | .bool _, .arr _ => .isFalse (fun h => Json.noConfusion h)
  | .bool _, .obj _ => .isFalse (fun h => Json.noConfusion h)
  | .num _, .null => .isFalse (fun h => Json.noConfusion h)
  | .num _, .bool _ => .isFalse (fun h => Json.noConfusion h)
  | .num x, .num y =>
    if h : x = y then .isTrue (by rw [h])
    else .isFalse (fun hh => h (Json.num.inj hh))
  | .num _, .str _ => .isFalse (fun h => Json.noConfusion h)
  | .num _, .arr _ => .isFalse (fun h => Json.noConfusion h)
  | .num _, .obj _ => .isFalse (fun h => Json.noConfusion h)
  | .str _, .null => .isFalse (fun h => Json.noConfusion h)
  | .str _, .bool _ => .isFalse (fun h => Json.noConfusion h)
  | .str _, .num _ => .isFalse (fun h => Json.noConfusion h)
  | .str x, .str y =>
    if h : x = y then .isTrue (by rw [h])
    else .isFalse (fun hh => h (Json.str.inj hh))
  | .str _, .arr _ => .isFalse (fun h => Json.noConfusion h)
  | .str _, .obj _ => .isFalse (fun h => Json.noConfusion h)
  | .arr _, .null => .isFalse (fun h => Json.noConfusion h)
  | .arr _, .bool _ => .isFalse (fun h => Json.noConfusion h)
  | .arr _, .num _ => .isFalse (fun h => Json.noConfusion h)
  | .arr _, .str _ => .isFalse (fun h => Json.noConfusion h)
  | .arr xs, .arr ys =>
    match Json.decEqList xs ys with
    | .isTrue h => .isTrue (by rw [h])
    | .isFalse h => .isFalse (fun hh => h (Json.arr.inj hh))
  | .arr _, .obj _ => .isFalse (fun h => Json.noConfusion h)
  | .obj _, .null => .isFalse (fun h => Json.noConfusion h)
  | .obj _, .bool _ => .isFalse (fun h => Json.noConfusion h)
  | .obj _, .num _ => .isFalse (fun h => Json.noConfusion h)
  | .obj _, .str _ => .isFalse (fun h => Json.noConfusion h)
  | .obj _, .arr _ => .isFalse (fun h => Json.noConfusion h)
  | .obj xs, .obj ys =>
    match Json.decEqFields xs ys with
    | .isTrue h => .isTrue (by rw [h])
    | .isFalse h => .isFalse (fun hh => h (Json.obj.inj hh))

/-- Decidable equality for lists of `Json`. -/
def Json.decEqList : (a b : List Json) → Decidable (a = b)
  | [], [] => .isTrue rfl
  | [], _ :: _ => .isFalse (fun h => List.noConfusion h)
  | _ :: _, [] => .isFalse (fun h => List.noConfusion h)
  | x :: xs, y :: ys =>
    match Json.decEq x y with
    | .isFalse h1 => .isFalse (fun h => h1 (List.cons.inj h).1)
    | .isTrue h1 =>
      match Json.decEqList xs ys with
      | .isTrue h2 => .isTrue (by rw [h1, h2])
      | .isFalse h2 => .isFalse (fun h => h2 (List.cons.inj h).2)

/-- Decidable equality for association lists of `Json` fields. -/
def Json.decEqFields : (a b : List (String × Json)) → Decidable (a = b)
  | [], [] => .isTrue rfl
  | [], _ :: _ => .isFalse (fun h => List.noConfusion h)
  | _ :: _, [] => .isFalse (fun h => List.noConfusion h)
  | (k1, v1) :: xs, (k2, v2) :: ys =>
    if h1 : k1 = k2 then
      match Json.decEq v1 v2 with
      | .isFalse h2 => .isFalse (fun h => h2 (Prod.mk.inj (List.cons.inj h).1).2)
      | .isTrue h2 =>
        match Json.decEqFields xs ys with
        | .isTrue h3 => .isTrue (by rw [h1, h2, h3])
        | .isFalse h3 => .isFalse (fun h => h3 (List.cons.inj h).2)
    else .isFalse (fun h => h1 (Prod.mk.inj (List.cons.inj h).1).1)

end

instance : DecidableEq Json := Json.decEq

/-- Python `dict` key lookup on the association-list model. -/
def lookupField (fields : List (String × Json)) (k : String) : Option Json :=
  match fields with
  | [] => none
  | (k', v) :: rest => if k' = k then some v else lookupField rest k

/-- Python `d[k] = v` on a `dict`: overwrite in place (key keeps its
position) or append a new key at the end.  Validated against CPython. -/
def setKey (fields : List (String × Json)) (k : String) (v : Json) :
    List (String × Json) :=
  match fields with
  | [] => [(k, v)]
  | (k', v') :: rest => if k' = k then (k', v) :: rest else (k', v') :: setKey rest k v

/-- Whether a JSON value is an object (a Python `dict`). -/
def Json.isObj : Json → Bool
  | .obj _ => true
  | _ => false

/-- Field lookup on a JSON value (only objects have fields). -/
def Json.lookup : Json → String → Option Json
  | .obj f, k => lookupField f k
  | _, _ => none

/-- Decidable form of "field `f` of record `r` is a nonempty string". -/
def nonemptyStrAt (r : Json) (f : String) : Bool :=
  match r.lookup f with
  | some (.str s) => decide (s ≠ "")
  | _ => false

/-! ### Model of `json.loads`

A fuel-indexed recursive-descent parser for the JSON grammar accepted by
Python's `json.loads` (strict mode): literals `null`/`true`/`false`, numbers
`-?(0|[1-9][0-9]*)(.[0-9]+)?([eE][+-]?[0-9]+)?`, strings with the standard
escapes (raw control characters below 0x20 rejected), arrays and objects,
with whitespace restricted to space, tab, newline, carriage return, and the
whole input consumed up to trailing whitespace.  Duplicate object keys keep
the first position and the last value, matching `dict` construction.
Deviation (irrelevant to every claim): a lone `\uXXXX` surrogate, which
CPython keeps as a lone-surrogate `str`, is mapped through `Char.ofNat`. -/

/-- The whitespace characters skipped by Python's JSON parser. -/
def isJsonWs (c : Char) : Bool :=
  c = ' ' || c = '\t' || c = '\n' || c = '\r'

/-- Skip leading JSON whitespace. -/
def skipWs : List Char → List Char
  | [] => []
  | c :: cs => if isJsonWs c then skipWs cs else c :: cs

/-- Decimal digits to a natural number. -/
def digitsToNat (ds : List Char) : Nat :=
  ds.foldl (fun n c => n * 10 + (c.toNat - '0'.toNat)) 0

/-- Integer part of a JSON number: `0` or a nonzero digit followed by
digits (leading zeros are not part of the token). -/
def parseIntPart : List Char → Option (Nat × List Char)
  | '0' :: rest => some (0, rest)
  | c :: rest =>
    if c.isDigit then
      let (ds, rest') := rest.span (·.isDigit)
      some (digitsToNat (c :: ds), rest')
    else none
  | [] => none

/-- Fraction part `.digits` if present; returns the digit list. -/
def parseFracPart : List Char → Option (List Char) × List Char
  | '.' :: rest =>
    let (ds, rest') := rest.span (·.isDigit)
    if ds.isEmpty then (none, '.' :: rest) else (some ds, rest')
  | cs => (none, cs)

/-- Exponent part `eE [+-]? digits` if present; returns the signed exponent. -/
def parseExpPart : List Char → Option (Option Int × List Char)
  | c :: rest =>
    if c = 'e' || c = 'E' then
      match rest with
      | '+' :: rest' =>
        let (ds, rest'') := rest'.span (·.isDigit)
        if ds.isEmpty then none else some (some (digitsToNat ds), rest'')
      | '-' :: rest' =>
        let (ds, rest'') := rest'.span (·.isDigit)
        if ds.isEmpty then none else some (some (-(digitsToNat ds : Int)), rest'')
      | _ =>
        let (ds, rest') := rest.span (·.isDigit)
        if ds.isEmpty then none else some (some (digitsToNat ds), rest')
    else some (none, c :: rest)
  | [] => some (none, [])

/-- Numeric value of a parsed JSON number, exactly, as a rational.  The
integer case avoids rational arithmetic so that concrete parses reduce in
the kernel. -/
def mkNum (neg : Bool) (ip : Nat) (frac : Option (List Char)) (ex : Option Int) : ℚ :=
  match frac, ex with
  | none, none => if neg then -(ip : ℚ) else (ip : ℚ)
  | frac, ex =>
    let fracVal : ℚ :=
      match frac with
      | none => 0
      | some ds => (digitsToNat ds : ℚ) / ((10 : ℚ) ^ ds.length)
    let mant : ℚ := (ip : ℚ) + fracVal
    let signed : ℚ := if neg then -mant else mant
    match ex with
    | none => signed
    | some e => signed * (10 : ℚ) ^ e

/-- Parse a JSON number token at the head of the input. -/
def parseNumber (cs : List Char) : Option (Json × List Char) :=
  let (neg, cs₁) := match cs with
    | '-' :: rest => (true, rest)
    | _ => (false, cs)
  match parseIntPart cs₁ with
  | none => none
  | some (ip, cs₂) =>
    let (frac, cs₃) := parseFracPart cs₂
    match parseExpPart cs₃ with
    | none => none
    | some (ex, cs₄) => some (.num (mkNum neg ip frac ex), cs₄)

/-- Parse four hex digits (for `\uXXXX` escapes). -/
def parseHex4 : List Char → Option (Nat × List Char)
  | a :: b :: c :: d :: rest =>
    let hv : Char → Option Nat := fun ch =>
      if ch.isDigit then some (ch.toNat - '0'.toNat)
      else if 'a' ≤ ch && ch ≤ 'f' then some (ch.toNat - 'a'.toNat + 10)
      else if 'A' ≤ ch && ch ≤ 'F' then some (ch.toNat - 'A'.toNat + 10)
      else none
    match hv a, hv b, hv c, hv d with
    | some x, some y, some z, some w => some (((x * 16 + y) * 16 + z) * 16 + w, rest)
    | _, _, _, _ => none
  | _ => none

/-- Body of a JSON string literal after the opening quote, fuel-indexed. -/
def parseStrBody : Nat → List Char → Option (List Char × List Char)
  | 0, _ => none
  | _ + 1, [] => none
  | fuel + 1, c :: cs =>
    if c = '"' then some ([], cs)
    else if c = '\\' then
      match cs with
      | [] => none
      | e :: cs' =>
        let simpleEsc : Option Char :=
          if e = '"' then some '"'
          else if e = '\\' then some '\\'
          else if e = '/' then some '/'
          else if e = 'b' then some (Char.ofNat 8)
          else if e = 'f' then some (Char.ofNat 12)
          else if e = 'n' then some '\n'
          else if e = 'r' then some '\r'
          else if e = 't' then some '\t'
          else none
        match simpleEsc with
        | some ch =>
          match parseStrBody fuel cs' with
          | some (body, rest) => some (ch :: body, rest)
          | none => none
        | none =>
          if e = 'u' then
            match parseHex4 cs' with
            | none => none
            | some (n, cs'') =>
              if 0xD800 ≤ n && n ≤ 0xDBFF then
                match cs'' with
                | '\\' :: 'u' :: cs₃ =>
                  match parseHex4 cs₃ with
                  | some (m, cs₄) =>
                    if 0xDC00 ≤ m && m ≤ 0xDFFF then
                      match parseStrBody fuel cs₄ with
                      | some (body, rest) =>
                        some (Char.ofNat (0x10000 + (n - 0xD800) * 0x400 + (m - 0xDC00)) :: body, rest)
                      | none => none
                    else
                      match parseStrBody fuel ('\\' :: 'u' :: cs₃) with
                      | some (body, rest) => some (Char.ofNat n :: body, rest)
                      | none => none
                  | none =>
                    match parseStrBody fuel cs'' with
                    | some (body, rest) => some (Char.ofNat n :: body, rest)
                    | none => none
                | _ =>
                  match parseStrBody fuel cs'' with
                  | some (body, rest) => some (Char.ofNat n :: body, rest)
                  | none => none
              else
                match parseStrBody fuel cs'' with
                | some (body, rest) => some (Char.ofNat n :: body, rest)
                | none => none
          else none
    else if c.toNat < 32 then none
    else
      match parseStrBody fuel cs with
      | some (body, rest) => some (c :: body, rest)
      | none => none

mutual

/-- Parse one JSON value at the head of the input (leading whitespace
skipped), fuel-indexed. -/
def parseValue : Nat → List Char → Option (Json × List Char)
  | 0, _ => none
  | fuel + 1, cs =>
    match skipWs cs with
    | 'n' :: 'u' :: 'l' :: 'l' :: rest => some (.null, rest)
    | 't' :: 'r' :: 'u' :: 'e' :: rest => some (.bool true, rest)
    | 'f' :: 'a' :: 'l' :: 's' :: 'e' :: rest => some (.bool false, rest)
    | '"' :: rest =>
      match parseStrBody fuel rest with
      | some (body, rest') => some (.str (String.mk body), rest')
      | none => none
    | '[' :: rest =>
      match skipWs rest with
      | ']' :: rest' => some (.arr [], rest')
      | rest' =>
        match parseValue fuel rest' with
        | some (v, rest'') => parseArrRest fuel [v] rest''
        | none => none
    | '\x7b' :: rest =>
      match skipWs rest with
      | '\x7d' :: rest' => some (.obj [], rest')
      | rest' => parseObjMember fuel [] rest'
    | cs' => parseNumber cs'

/-- After array elements `acc` (reversed), expect `,` and another value or
the closing bracket. -/
def parseArrRest : Nat → List Json → List Char → Option (Json × List Char)
  | 0, _, _ => none
  | fuel + 1, acc, cs =>
    match skipWs cs with
    | ']' :: rest => some (.arr acc.reverse, rest)
    | ',' :: rest =>
      match parseValue fuel rest with
      | some (v, rest') => parseArrRest fuel (v :: acc) rest'
      | none => none
    | _ => none

/-- Parse one `"key": value` member and continue with `parseObjRest`. -/
def parseObjMember : Nat → List (String × Json) → List Char → Option (Json × List Char)
  | 0, _, _ => none
  | fuel + 1, acc, cs =>
    match skipWs cs with
    | '"' :: rest =>
      match parseStrBody fuel rest with
      | some (body, rest') =>
        match skipWs rest' with
        | ':' :: rest'' =>
          match parseValue fuel rest'' with
          | some (v, rest₃) => parseObjRest fuel (setKey acc (String.mk body) v) rest₃
          | none => none
        | _ => none
      | none => none
    | _ => none

/-- After object members `acc`, expect `,` and another member or the
closing brace. -/
def parseObjRest : Nat → List (String × Json) → List Char → Option (Json × List Char)
  | 0, _, _ => none
  | fuel + 1, acc, cs =>
    match skipWs cs with
    | '\x7d' :: rest => some (.obj acc, rest)
    | ',' :: rest => parseObjMember fuel acc rest
    | _ => none

end

/-- Model of Python `json.loads`: parse one value and require that only
whitespace remains.  The fuel bound `2 * length + 8` dominates the parser's
call depth (at most two calls per consumed character). -/
def json_loads (s : String) : Option Json :=
  match parseValue (2 * s.data.length + 8) s.data with
  | some (v, rest) => if skipWs rest = [] then some v else none
  | none => none

/-! ### Model of the regex extraction step

Both `research_leads` (src lines 64-72) and `analyze_and_score_leads`
(src lines 162-170) run

    json_match = re.search(r'\[.*\]', content, re.DOTALL)
    if json_match:
        content = json_match.group(0)
    ... json.loads(content)

`re.search` with a greedy `.*` under `DOTALL` matches from the first `[`
that has some `]` after it through the last `]` of the whole text
(validated against CPython `re`).  Equivalently: the span from the first
`[` to the last `]`, when the first `[` precedes the last `]`. -/

/-- The substring matched by `re.search(r'\[.*\]', content, re.DOTALL)`,
or `none` when there is no match: drop up to the first `[`, then drop the
reversed tail up to the last `]`. -/
def bracketSpan (cs : List Char) : Option (List Char) :=
  match cs.dropWhile (fun c => !(c = '[')) with
  | [] => none
  | lb :: tail =>
    match tail.reverse.dropWhile (fun c => !(c = ']')) with
    | [] => none
    | rb :: midRev => some (lb :: (rb :: midRev).reverse)

/-- The `regex-match-then-parse` step shared by the research and analysis
stages: parse the matched span if the regex matches, otherwise parse the
unmodified completion text. -/
def loadsAfterExtract (content : String) : Option Json :=
  match bracketSpan content.data with
  | some m => json_loads (String.mk m)
  | none => json_loads content

/-! ### `research_leads` (src lines 27-110) -/

/-- The prompt built by `research_leads` (src lines 37-51); the requested
lead count, industry and location are interpolated only here. -/
def researchPrompt (industry location : String) (numLeads : Nat) : String :=
  "\n        You are a B2B lead generation specialist. Find " ++ toString numLeads ++
  " high-potential " ++ industry ++ " in " ++ location ++
  ".\n        \n        For each business, provide the following information in a JSON array:\n" ++
  "        - business_name: Full name of the business\n" ++
  "        - address: Complete address\n" ++
  "        - phone: Phone number if available\n" ++
  "        - website: Website URL if available\n" ++
  "        - email: Email if available\n" ++
  "        - description: Brief description of the business\n" ++
  "        - estimated_size: Estimated size (small, medium, large, or square footage if known)\n" ++
  "        - year_established: Year established if available (or estimate)\n" ++
  "        \n        Return ONLY valid JSON that can be parsed, with no additional text.\n        "

/-- The hard-coded fallback record set installed by `research_leads` when
its inference call or parse fails (src lines 78-109), as a list. -/
def fallbackLeadsList : List Json :=
    [ .obj
        [ ("business_name", .str "Premier Dental Care of Buckhead")
        , ("address", .str "3580 Piedmont Rd NE Suite 113, Atlanta, GA 30305")
        , ("phone", .str "(404) 491-7711")
        , ("website", .str "premierdentalcareofbuckhead.com")
        , ("email", .str "info@premierdentalcare.com")
        , ("description", .str "Full-service dental practice with cosmetic and general dentistry services")
        , ("estimated_size", .str "medium")
        , ("year_established", .str "2015") ]
    , .obj
        [ ("business_name", .str "Buckhead Dental Partners")
        , ("address", .str "3525 Piedmont Rd NE Building 8 Suite 415, Atlanta, GA 30305")
        , ("phone", .str "(404) 261-0610")
        , ("website", .str "buckheaddentalpartners.com")
        , ("email", .str "appointment@buckheaddentalpartners.com")
        , ("description", .str "Upscale dental practice specializing in cosmetic and implant dentistry")
        , ("estimated_size", .str "medium")
        , ("year_established", .str "2012") ]
    , .obj
        [ ("business_name", .str "Atlanta Dental Spa - Buckhead")
        , ("address", .str "3189 Maple Dr NE, Atlanta, GA 30305")
        , ("phone", .str "(404) 816-2230")
        , ("website", .str "atlantadentalspa.com")
        , ("email", .str "smile@atlantadentalspa.com")
        , ("description", .str "Luxury dental spa offering high-end dentistry with comfort amenities")
        , ("estimated_size", .str "large")
        , ("year_established", .str "2008") ]
    ]

/-- The fallback record set as the JSON value assigned to `self.leads`. -/
def fallbackLeads : Json := .arr fallbackLeadsList

/-- The eight fields documented for every research record. -/
def requiredLeadFields : List String :=
  [ "business_name", "address", "phone", "website", "email"
  , "description", "estimated_size", "year_established" ]

/-- `research_leads` as a function of the inference call's outcome: on a
completion, run the extract-then-parse step; on any exception (from the
call or from `json.loads`), install `fallbackLeads` (src lines 53-110). -/
def researchLeads (resp : Except String String) : Json :=
  match resp with
  | .error _ => fallbackLeads
  | .ok content =>
    match loadsAfterExtract content with
    | some v => v
    | none => fallbackLeads

/-- `research_leads` including prompt construction: the count, industry
and location flow only into the prompt handed to the inference client. -/
def researchLeadsFull (client : String → Except String String)
    (industry location : String) (numLeads : Nat) : Json :=
  researchLeads (client (researchPrompt industry location numLeads))

/-! ### `analyze_and_score_leads` (src lines 112-184) -/

/-- The constant enrichment written into each record by the analysis
fallback (src lines 177-182), in assignment order. -/
def enrichFields (f : List (String × Json)) : List (String × Json) :=
  setKey (setKey (setKey (setKey (setKey f
    "score" (.num 4.2))
    "classification" (.str "High Value"))
    "reasoning" (.str "Located in upscale area with complete contact information"))
    "best_contact_method" (.str "Email"))
    "personalized_note" (.str "Your facility's premium image would benefit from specialized cleaning services")

/-- Apply the fallback enrichment to one record object. -/
def enrichLead : Json → Json
  | .obj f => .obj (enrichFields f)
  | j => j

/-- Whether a JSON value is a list of record objects (a Python list of
dicts) — the only shape on which the analysis fallback loop completes. -/
def isRecordList : Json → Bool
  | .arr xs => xs.all Json.isObj
  | _ => false

/-- The analysis fallback path (src lines 176-184): `self.leads.copy()`
then in-place enrichment of every record.  When `self.leads` is not a list
of dicts the Python loop raises inside the `except` block and the
exception propagates out of the method; that path is `none`. -/
def fallbackAnalysis (leads : Json) : Option Json :=
  match leads with
  | .arr xs => if xs.all Json.isObj then some (.arr (xs.map enrichLead)) else none
  | _ => none

/-- `analyze_and_score_leads` as a function of the inference outcome and
the current lead collection: parsed completion on success, fallback
enrichment on failure. -/
def analyzeAndScoreLeads (resp : Except String String) (leads : Json) : Option Json :=
  match resp with
  | .error _ => fallbackAnalysis leads
  | .ok content =>
    match loadsAfterExtract content with
    | some v => some v
    | none => fallbackAnalysis leads

/-! ### `generate_outreach_email` (src lines 186-220) -/

/-- The fixed string returned when email generation fails (src line 220). -/
def errorEmailTemplate : String := "Error generating personalized email template."

/-- `generate_outreach_email` as a function of the inference outcome.  The
codomain is `Option String` so that a hypothetical `None` (null) return is
representable; the function in fact always returns a string. -/
def generateOutreachEmail (resp : Except String String) : Option String :=
  match resp with
  | .ok content => some content
  | .error _ => some errorEmailTemplate

/-! ### `prepare_spreadsheet` (src lines 222-247)

`pd.DataFrame(self.qualified_leads)` on a list of records yields one row
per record and one column per distinct key, in first-appearance order,
with missing keys becoming NaN (validated pandas behavior).  The model
covers the list-of-records inputs this pipeline produces; any other input
is mapped to the failure outcome, matching the `except` branch.
`df.sort_values(by='score', ascending=False)` raises `KeyError` when no
record has a `score` key, raises `TypeError` when score values mix numbers
and strings, and otherwise sorts descending with missing values last.
Tie order is modelled as numpy's small-array insertion sort (stable); see
the C2 discussion — pandas' default kind `quicksort` does not promise this
for longer columns.  The `.xlsx` byte format is opaque; `to_excel` is
modelled as a serialization of the sorted table prefixed by the workbook
metadata timestamp, and the claims use only that the bytes written to disk
are exactly the bytes that get base64-embedded in the download link. -/

/-- A pandas DataFrame: column names plus rows of cells (`none` = NaN). -/
structure DataFrame where
  cols : List String
  rows : List (List (Option Json))
deriving DecidableEq

/-- Add the keys of one record to the column list, keeping first-appearance
order (pandas column inference over a list of dicts). -/
def addKeys (cols : List String) (fields : List (String × Json)) : List String :=
  fields.foldl (fun acc p => if p.1 ∈ acc then acc else acc ++ [p.1]) cols

/-- Union of keys across records, in first-appearance order. -/
def unionCols (recs : List (List (String × Json))) : List String :=
  recs.foldl addKeys []

/-- One DataFrame row for a record: cell per column, NaN when absent. -/
def recordRow (cols : List String) (fields : List (String × Json)) :
    List (Option Json) :=
  cols.map (fun c => lookupField fields c)

/-- View a JSON value as a list of records (a Python list of dicts). -/
def asRecordList : Json → Option (List (List (String × Json)))
  | .arr xs => xs.mapM (fun x => match x with | .obj f => some f | _ => none)
  | _ => none

/-- `pd.DataFrame(qualified_leads)` on the inputs this pipeline produces. -/
def toDataFrame (q : Json) : Option DataFrame :=
  (asRecordList q).map (fun recs => ⟨unionCols recs, recs.map (recordRow (unionCols recs))⟩)

/-- Sort keys of the score column: Python compares numbers with numbers
(bools count as 0/1) and strings with strings; mixing them raises. -/
inductive SortKey where
  | num : ℚ → SortKey
  | str : String → SortKey
deriving DecidableEq

/-- Classify one score cell: `none` = TypeError (unsortable value),
`some none` = missing (NaN/None, placed last), `some (some k)` = key. -/
def cellKey : Option Json → Option (Option SortKey)
  | none => some none
  | some .null => some none
  | some (.num q) => some (some (.num q))
  | some (.bool b) => some (some (.num (if b then 1 else 0)))
  | some (.str s) => some (some (.str s))
  | some (.arr _) => none
  | some (.obj _) => none

/-- Split rows into keyed rows and missing-score rows, both in original
order; `none` when some score cell is unsortable. -/
def splitNa (i : Nat) : List (List (Option Json)) →
    Option (List (SortKey × List (Option Json)) × List (List (Option Json)))
  | [] => some ([], [])
  | r :: rs =>
    match splitNa i rs with
    | none => none
    | some (ks, nas) =>
      match cellKey (r.getD i none) with
      | none => none
      | some none => some (ks, r :: nas)
      | some (some k) => some ((k, r) :: ks, nas)

/-- Whether a key is numeric. -/
def SortKey.isNum : SortKey → Bool
  | .num _ => true
  | .str _ => false

/-- Whether a key is a string. -/
def SortKey.isStr : SortKey → Bool
  | .num _ => false
  | .str _ => true

/-- All keys numeric, or all keys strings: the comparisons Python allows. -/
def uniformKind (ks : List (SortKey × List (Option Json))) : Bool :=
  ks.all (fun p => p.1.isNum) || ks.all (fun p => p.1.isStr)

/-- Order on sort keys (only ever used between keys of the same kind). -/
def SortKey.le : SortKey → SortKey → Prop
  | .num a, .num b => a ≤ b
  | .str a, .str b => a ≤ b
  | _, _ => False

instance : DecidableRel SortKey.le := fun a b =>
  match a, b with
  | .num _, .num _ => inferInstanceAs (Decidable (_ ≤ _))
  | .num _, .str _ => inferInstanceAs (Decidable False)
  | .str _, .num _ => inferInstanceAs (Decidable False)
  | .str _, .str _ => inferInstanceAs (Decidable (_ ≤ _))

/-- Insertion relation for the descending sort: keyed row `a` goes before
keyed row `b` when `b`'s key is at most `a`'s, so equal keys keep their
original relative order. -/
def rowRel (a b : SortKey × List (Option Json)) : Prop := SortKey.le b.1 a.1

instance : DecidableRel rowRel := fun a b =>
  inferInstanceAs (Decidable (SortKey.le b.1 a.1))

/-- `df.sort_values(by='score', ascending=False)`: `KeyError` without a
score column, `TypeError` on mixed-kind scores, otherwise keyed rows in
descending key order followed by the missing-score rows. -/
def sortDF (df : DataFrame) : Option DataFrame :=
  match df.cols.findIdx? (fun c => c = "score") with
  | none => none
  | some i =>
    match splitNa i df.rows with
    | none => none
    | some (keyed, nas) =>
      if uniformKind keyed then
        some ⟨df.cols, (List.insertionSort rowRel keyed).map (fun p => p.2) ++ nas⟩
      else none

/-! ### Bytes, base64 and the download link -/

/-- Opaque byte stand-in for a string (every element below 256). -/
def strBytes (s : String) : List Nat :=
  s.data.map (fun c => c.toNat % 256)

mutual

/-- Opaque byte serialization of a JSON value (for spreadsheet cells). -/
def jsonBytes : Json → List Nat
  | .null => [110]
  | .bool b => [if b then 116 else 102]
  | .num q => 35 :: (Nat.digits 10 q.num.natAbs).map (· + 48) ++
      [if q.num < 0 then 45 else 43] ++ (Nat.digits 10 q.den).map (· + 48)
  | .str s => 34 :: strBytes s ++ [34]
  | .arr xs => 91 :: jsonBytesList xs ++ [93]
  | .obj fs => 123 :: jsonBytesFields fs ++ [125]

/-- Byte serialization of a list of JSON values. -/
def jsonBytesList : List Json → List Nat
  | [] => []
  | x :: xs => jsonBytes x ++ 44 :: jsonBytesList xs

/-- Byte serialization of JSON object fields. -/
def jsonBytesFields : List (String × Json) → List Nat
  | [] => []
  | (k, v) :: fs => strBytes k ++ 58 :: jsonBytes v ++ 44 :: jsonBytesFields fs

end

/-- Byte serialization of one spreadsheet cell. -/
def cellBytes : Option Json → List Nat
  | none => [0]
  | some j => 1 :: jsonBytes j

/-- Byte serialization of the sorted table (timestamp-independent part of
the workbook). -/
def dfBytes (df : DataFrame) : List Nat :=
  (df.cols.map strBytes).flatten ++ 2 :: (df.rows.map (fun r => (r.map cellBytes).flatten ++ [3])).flatten

/-- Clamp a list to byte range (it is below 256 everywhere it is used; the
clamp makes that a one-line fact). -/
def byteClamp (l : List Nat) : List Nat := l.map (fun b => b % 256)

/-- Workbook metadata bytes derived from the generator's timestamp. -/
def tsBytes (ts : String) : List Nat := byteClamp (strBytes ts ++ [4])

/-- Model of the bytes `to_excel` writes: timestamp metadata then the
timestamp-independent serialization of the sorted table. -/
def toExcelBytes (ts : String) (df : DataFrame) : List Nat :=
  tsBytes ts ++ byteClamp (dfBytes df)

/-- The standard base64 alphabet. -/
def b64Table : List Char :=
  "ABCDEFGHIJKLMNOPQRSTUVWXYZabcdefghijklmnopqrstuvwxyz0123456789+/".data

/-- Character for a six-bit value. -/
def sextetChar (n : Nat) : Char := b64Table.getD n 'A'

/-- Six-bit value of a base64 character. -/
def sextetVal (c : Char) : Option Nat := b64Table.findIdx? (fun x => x = c)

/-- Model of `base64.b64encode` on a byte list. -/
def b64encode : List Nat → List Char
  | [] => []
  | [a] => [sextetChar (a / 4), sextetChar (a % 4 * 16), '=', '=']
  | [a, b] => [sextetChar (a / 4), sextetChar (a % 4 * 16 + b / 16), sextetChar (b % 16 * 4), '=']
  | a :: b :: c :: rest =>
    sextetChar (a / 4) :: sextetChar (a % 4 * 16 + b / 16) ::
    sextetChar (b % 16 * 4 + c / 64) :: sextetChar (c % 64) :: b64encode rest

/-- Standard base64 decoding (inverse of `b64encode` on valid input). -/
def b64decode : List Char → List Nat
  | w :: x :: y :: z :: rest =>
    match sextetVal w, sextetVal x with
    | some v1, some v2 =>
      if y = '=' then [v1 * 4 + v2 / 16]
      else
        match sextetVal y with
        | some v3 =>
          if z = '=' then [v1 * 4 + v2 / 16, v2 % 16 * 16 + v3 / 4]
          else
            match sextetVal z with
            | some v4 =>
              (v1 * 4 + v2 / 16) :: (v2 % 16 * 16 + v3 / 4) ::
              (v3 % 4 * 64 + v4) :: b64decode rest
            | none => []
        | none => []
    | _, _ => []
  | _ => []

/-! ### The export operation -/

/-- Everything observable about one run of `prepare_spreadsheet`: the
files written to disk (name and bytes, in order) and the returned value
(`none` models the `return None` of the `except` branch). -/
structure ExportOutcome where
  written : List (String × List Nat)
  result : Option String
deriving DecidableEq

/-- The spreadsheet filename (src line 234). -/
def excelFileName (ts : String) : String :=
  "qualified_leads_" ++ ts ++ ".xlsx"

/-- The download link markup built around the base64 payload (src 241). -/
def hrefOf (fname payload : String) : String :=
  "<a href=\"data:application/vnd.openxmlformats-officedocument.spreadsheetml.sheet;base64," ++
  payload ++ "\" download=\"" ++ fname ++ "\">Download Excel Report</a>"

/-- DataFrame construction plus sort: the part of `prepare_spreadsheet`
before any file is written. -/
def exportCore (q : Json) : Option DataFrame :=
  (toDataFrame q).bind sortDF

/-- Failure outcome: nothing written, `None` returned. -/
def emptyOutcome : ExportOutcome := ⟨[], none⟩

/-- Success outcome: the workbook file is written and the link embeds the
base64 encoding of exactly the written bytes. -/
def successOutcome (ts : String) (df : DataFrame) : ExportOutcome :=
  ⟨[(excelFileName ts, toExcelBytes ts df)],
   some (hrefOf (excelFileName ts) (String.mk (b64encode (toExcelBytes ts df))))⟩

/-- `prepare_spreadsheet` (src lines 222-247). -/
def prepareSpreadsheet (ts : String) (q : Json) : ExportOutcome :=
  match exportCore q with
  | none => emptyOutcome
  | some df => successOutcome ts df

/-! ### The end-to-end pipeline (form submission in `create_streamlit_app`,
src lines 358-366): research, then analyze, then export.  When the
analysis fallback itself raises, the submission handler stops before the
export step. -/

/-- One submission: `research_leads` → `analyze_and_score_leads` →
`prepare_spreadsheet`, with the research inference call going through the
prompt and `client`, and the analysis outcome supplied directly. -/
def runPipeline (ts : String) (client : String → Except String String)
    (analysisResp : Except String String) (industry location : String)
    (numLeads : Nat) : Json × Option (Json × ExportOutcome) :=
  let leads := researchLeadsFull client industry location numLeads
  match analyzeAndScoreLeads analysisResp leads with
  | none => (leads, none)
  | some q => (leads, some (q, prepareSpreadsheet ts q))

/-! ### Heap model for the shallow-copy aliasing of the analysis fallback
(C10).  `self.qualified_leads = self.leads.copy()` copies the list of
references; the loop then mutates the referenced record objects in place,
so the same mutation is visible through `self.leads`. -/

/-- Object heap: record objects addressed by index; `leads` and
`qualified` are the two instance attributes as lists of references. -/
structure AnalysisState where
  heap : List (List (String × Json))
  leads : List Nat
  qualified : List Nat

/-- In-place enrichment of the record object at one reference. -/
def enrichAt (heap : List (List (String × Json))) (i : Nat) :
    List (List (String × Json)) :=
  heap.set i (enrichFields (heap.getD i []))

/-- The analysis fallback on the heap model: `qualified` becomes a copy of
the `leads` reference list (same referenced objects), and every referenced
record object is mutated in place. -/
def fallbackEnrichState (st : AnalysisState) : AnalysisState :=
  ⟨st.leads.foldl enrichAt st.heap, st.leads, st.leads⟩

/-! ## Lemmas about dict update and the fallback enrichment -/

theorem lookupField_setKey_self (f : List (String × Json)) (k : String) (v : Json) :
    lookupField (setKey f k v) k = some v := by
  induction f with
  | nil => simp [setKey, lookupField]
  | cons p rest ih =>
    obtain ⟨k', v'⟩ := p
    by_cases h : k' = k
    · simp [setKey, lookupField, h]
    · simp [setKey, lookupField, h, ih]

theorem lookupField_setKey_ne (f : List (String × Json)) (k k' : String) (v : Json)
    (h : k' ≠ k) : lookupField (setKey f k v) k' = lookupField f k' := by
  induction f with
  | nil => simp [setKey, lookupField, Ne.symm h]
  | cons p rest ih =>
    obtain ⟨k₀, v₀⟩ := p
    by_cases h0 : k₀ = k
    · subst h0
      simp [setKey, lookupField, Ne.symm h]
    · simp [setKey, lookupField, h0, ih]

theorem enrichFields_lookups (f : List (String × Json)) :
    lookupField (enrichFields f) "score" = some (.num 4.2) ∧
    lookupField (enrichFields f) "classification" = some (.str "High Value") ∧
    lookupField (enrichFields f) "reasoning" =
      some (.str "Located in upscale area with complete contact information") ∧
    lookupField (enrichFields f) "best_contact_method" = some (.str "Email") ∧
    lookupField (enrichFields f) "personalized_note" =
      some (.str "Your facility's premium image would benefit from specialized cleaning services") := by
  unfold enrichFields
  refine ⟨?_, ?_, ?_, ?_, ?_⟩
  · rw [lookupField_setKey_ne _ _ _ _ (by decide), lookupField_setKey_ne _ _ _ _ (by decide),
      lookupField_setKey_ne _ _ _ _ (by decide), lookupField_setKey_ne _ _ _ _ (by decide),
      lookupField_setKey_self]
  · rw [lookupField_setKey_ne _ _ _ _ (by decide), lookupField_setKey_ne _ _ _ _ (by decide),
      lookupField_setKey_ne _ _ _ _ (by decide), lookupField_setKey_self]
  · rw [lookupField_setKey_ne _ _ _ _ (by decide), lookupField_setKey_ne _ _ _ _ (by decide),
      lookupField_setKey_self]
  · rw [lookupField_setKey_ne _ _ _ _ (by decide), lookupField_setKey_self]
  · rw [lookupField_setKey_self]

theorem nonemptyStrAt_iff (r : Json) (f : String) :
    nonemptyStrAt r f = true ↔ ∃ s, r.lookup f = some (.str s) ∧ s ≠ "" := by
  unfold nonemptyStrAt
  cases h : r.lookup f with
  | none => simp
  | some j =>
    cases j with
    | str s => simp [Json.str.injEq]
    | null => simp
    | bool b => simp
    | num q => simp
    | arr xs => simp
    | obj fs => simp

theorem all_fields_nonempty (l : List Json)
    (h : l.all (fun r => requiredLeadFields.all (fun f => nonemptyStrAt r f)) = true) :
    ∀ r ∈ l, ∀ f ∈ requiredLeadFields, ∃ s, r.lookup f = some (.str s) ∧ s ≠ "" := by
  intro r hr f hf
  rw [← nonemptyStrAt_iff]
  exact List.all_eq_true.mp (List.all_eq_true.mp h r hr) f hf

/-! ## C3 -/

/-- C3: the fallback record set installed by the research stage contains
exactly 3 records, and each record has all eight documented fields
populated with nonempty string values. -/
theorem fallback_research_records :
    fallbackLeads = Json.arr fallbackLeadsList ∧ fallbackLeadsList.length = 3 ∧
      ∀ r ∈ fallbackLeadsList, ∀ f ∈ requiredLeadFields,
        ∃ s, r.lookup f = some (.str s) ∧ s ≠ "" :=
  ⟨rfl, by decide, all_fields_nonempty _ (by decide)⟩

/-- Witness for C3 at a concrete record and field. -/
theorem fallback_research_records_witness :
    fallbackLeadsList.length = 3 ∧
    ∃ s, Json.lookup (Json.obj
        [ ("business_name", .str "Premier Dental Care of Buckhead")
        , ("address", .str "3580 Piedmont Rd NE Suite 113, Atlanta, GA 30305")
        , ("phone", .str "(404) 491-7711")
        , ("website", .str "premierdentalcareofbuckhead.com")
        , ("email", .str "info@premierdentalcare.com")
        , ("description", .str "Full-service dental practice with cosmetic and general dentistry services")
        , ("estimated_size", .str "medium")
        , ("year_established", .str "2015") ]) "business_name" = some (.str s) ∧ s ≠ "" :=
  ⟨fallback_research_records.2.1,
   fallback_research_records.2.2 _ (by decide) "business_name" (by decide)⟩

/-! ## Shared shape of the analysis fallback -/

theorem fallbackAnalysis_completes (l : List Json) (hrec : ∀ x ∈ l, x.isObj = true) :
    fallbackAnalysis (Json.arr l) = some (Json.arr (l.map enrichLead)) := by
  simp [fallbackAnalysis, List.all_eq_true.mpr hrec]

/-! ## C4 -/

/-- C4: whenever the analysis stage falls back — its inference call raised,
or the extract-then-parse step failed on the completion — and the current
lead collection is a list of record objects (so the fallback loop
completes), every record of the resulting qualified-lead collection has
score exactly 4.2 and classification exactly "High Value". -/
theorem analysis_fallback_constant_enrichment
    (resp : Except String String) (l : List Json)
    (hrec : ∀ x ∈ l, x.isObj = true)
    (hfb : (∃ e, resp = .error e) ∨ ∃ c, resp = .ok c ∧ loadsAfterExtract c = none) :
    ∃ l', analyzeAndScoreLeads resp (Json.arr l) = some (Json.arr l') ∧
      l'.length = l.length ∧
      ∀ r ∈ l', r.lookup "score" = some (.num 4.2) ∧
        r.lookup "classification" = some (.str "High Value") := by
  have hall : l.all Json.isObj = true := List.all_eq_true.mpr hrec
  have hfba : analyzeAndScoreLeads resp (Json.arr l) = fallbackAnalysis (Json.arr l) := by
    rcases hfb with ⟨e, rfl⟩ | ⟨c, rfl, hc⟩
    · rfl
    · simp [analyzeAndScoreLeads, hc]
  refine ⟨l.map enrichLead, ?_, by simp, ?_⟩
  · rw [hfba]
    exact fallbackAnalysis_completes l hrec
  · intro r hr
    rcases List.mem_map.mp hr with ⟨x, hx, rfl⟩
    have hobj := hrec x hx
    cases x with
    | obj f =>
      have h5 := enrichFields_lookups f
      exact ⟨by simpa [enrichLead, Json.lookup] using h5.1,
        by simpa [enrichLead, Json.lookup] using h5.2.1⟩
    | null => simp [Json.isObj] at hobj
    | bool b => simp [Json.isObj] at hobj
    | num q => simp [Json.isObj] at hobj
    | str s => simp [Json.isObj] at hobj
    | arr xs => simp [Json.isObj] at hobj

/-- Witness for C4 at a concrete failed inference outcome and a concrete
one-record collection. -/
theorem analysis_fallback_constant_enrichment_witness :
    ∃ l', analyzeAndScoreLeads (.error "boom") (Json.arr [Json.obj []]) = some (Json.arr l') ∧
      l'.length = [Json.obj []].length ∧
      ∀ r ∈ l', r.lookup "score" = some (.num 4.2) ∧
        r.lookup "classification" = some (.str "High Value") :=
  analysis_fallback_constant_enrichment (.error "boom") [Json.obj []]
    (by decide) (Or.inl ⟨"boom", rfl⟩)

/-! ## C5 (amended) and its counterexample -/

theorem fallbackAnalysis_raises (bad : Json) (hbad : isRecordList bad = false) :
    fallbackAnalysis bad = none := by
  cases bad with
  | arr xs =>
    simp only [isRecordList] at hbad
    simp [fallbackAnalysis, hbad]
  | null => rfl
  | bool b => rfl
  | num qn => rfl
  | str s => rfl
  | obj fs => rfl

/-- Counterexample to C5 as stated, at two explicit inputs.  First, on
failure `generate_outreach_email` returns the fixed template string (src
line 220), not a null result.  Second, the analysis stage does not always
absorb its error locally: when the research stage has left a collection
that is not a list of records — here the one parsed from the completion
"[1]", a list containing a number — the fallback loop inside the `except`
block itself raises (`lead["score"] = 4.2` on a non-dict) and the error
propagates out of `analyze_and_score_leads`. -/
theorem stage_absorption_counterexample :
    generateOutreachEmail (Except.error "API failure") = some errorEmailTemplate ∧
    generateOutreachEmail (Except.error "API failure") ≠ none ∧
    researchLeads (.ok "[1]") = Json.arr [Json.num 1] ∧
    analyzeAndScoreLeads (.error "boom") (Json.arr [Json.num 1]) = none :=
  ⟨rfl, by simp [generateOutreachEmail], by decide, rfl⟩

/-- C5 as amended: each stage handles its own failure as follows — the
research stage always substitutes the fixed fallback record set; the
analysis stage substitutes the constant enrichment values when the
research collection is a list of records, and otherwise its fallback
itself raises, so the error propagates rather than being absorbed; the
export operation returns a null result; and the email-generation
operation returns the fixed error-message string rather than null. -/
theorem stage_failure_absorption
    (e : String) (ts : String) (l : List Json) (q bad : Json)
    (hrec : ∀ x ∈ l, x.isObj = true) (hq : exportCore q = none)
    (hbad : isRecordList bad = false) :
    researchLeads (.error e) = fallbackLeads ∧
    analyzeAndScoreLeads (.error e) (Json.arr l) = some (Json.arr (l.map enrichLead)) ∧
    (∀ r ∈ l.map enrichLead,
      r.lookup "score" = some (.num 4.2) ∧
      r.lookup "classification" = some (.str "High Value") ∧
      r.lookup "reasoning" =
        some (.str "Located in upscale area with complete contact information") ∧
      r.lookup "best_contact_method" = some (.str "Email") ∧
      r.lookup "personalized_note" =
        some (.str "Your facility's premium image would benefit from specialized cleaning services")) ∧
    analyzeAndScoreLeads (.error e) bad = none ∧
    prepareSpreadsheet ts q = emptyOutcome ∧
    generateOutreachEmail (.error e) = some errorEmailTemplate := by
  refine ⟨rfl, fallbackAnalysis_completes l hrec, ?_,
    fallbackAnalysis_raises bad hbad, ?_, rfl⟩
  · intro r hr
    rcases List.mem_map.mp hr with ⟨x, hx, rfl⟩
    have hobj := hrec x hx
    cases x with
    | obj f =>
      have h5 := enrichFields_lookups f
      exact ⟨by simpa [enrichLead, Json.lookup] using h5.1,
        by simpa [enrichLead, Json.lookup] using h5.2.1,
        by simpa [enrichLead, Json.lookup] using h5.2.2.1,
        by simpa [enrichLead, Json.lookup] using h5.2.2.2.1,
        by simpa [enrichLead, Json.lookup] using h5.2.2.2.2⟩
    | null => simp [Json.isObj] at hobj
    | bool b => simp [Json.isObj] at hobj
    | num qn => simp [Json.isObj] at hobj
    | str s => simp [Json.isObj] at hobj
    | arr xs => simp [Json.isObj] at hobj
  · simp [prepareSpreadsheet, hq]

/-- Witness for C5 (amended) at concrete failing inputs. -/
theorem stage_failure_absorption_witness :
    researchLeads (.error "boom") = fallbackLeads ∧
    analyzeAndScoreLeads (.error "boom") (Json.arr [Json.obj []]) =
      some (Json.arr ([Json.obj []].map enrichLead)) ∧
    (∀ r ∈ [Json.obj []].map enrichLead,
      r.lookup "score" = some (.num 4.2) ∧
      r.lookup "classification" = some (.str "High Value") ∧
      r.lookup "reasoning" =
        some (.str "Located in upscale area with complete contact information") ∧
      r.lookup "best_contact_method" = some (.str "Email") ∧
      r.lookup "personalized_note" =
        some (.str "Your facility's premium image would benefit from specialized cleaning services")) ∧
    analyzeAndScoreLeads (.error "boom") (Json.arr [Json.num 1]) = none ∧
    prepareSpreadsheet "2024-01-01_00-00-00" (Json.arr []) = emptyOutcome ∧
    generateOutreachEmail (.error "boom") = some errorEmailTemplate :=
  stage_failure_absorption "boom" "2024-01-01_00-00-00" [Json.obj []] (Json.arr [])
    (Json.arr [Json.num 1]) (by decide) (by decide) (by decide)

/-! ## C6 -/

/-- C6: exporting an empty lead collection fails predictably — the empty
DataFrame has no `score` column, `sort_values` raises `KeyError` before
any file is written, and the `except` branch returns `None`. -/
theorem export_empty_collection_fails (ts : String) :
    prepareSpreadsheet ts (Json.arr []) = emptyOutcome ∧
    (prepareSpreadsheet ts (Json.arr [])).written = [] ∧
    (prepareSpreadsheet ts (Json.arr [])).result = none :=
  ⟨rfl, rfl, rfl⟩

/-! ## C9 -/

/-- C9: with the inference client held fixed (it returns the same
completion whatever the prompt says), the requested lead count — minimum 3
versus maximum 10 — changes neither the extracted records nor the exported
table: the count flows only into the prompt text. -/
theorem lead_count_noninterference
    (ts : String) (client : String → Except String String)
    (analysisResp : Except String String) (industry location : String)
    (hconst : ∀ p₁ p₂, client p₁ = client p₂) :
    researchLeadsFull client industry location 3 =
      researchLeadsFull client industry location 10 ∧
    runPipeline ts client analysisResp industry location 3 =
      runPipeline ts client analysisResp industry location 10 := by
  have h : researchLeadsFull client industry location 3 =
      researchLeadsFull client industry location 10 := by
    unfold researchLeadsFull
    rw [hconst (researchPrompt industry location 3) (researchPrompt industry location 10)]
  refine ⟨h, ?_⟩
  unfold runPipeline
  rw [h]

/-- Witness for C9 with a concrete constant client. -/
theorem lead_count_noninterference_witness :
    researchLeadsFull (fun _ => .ok "[1]") "dental practices" "Buckhead, Atlanta, GA" 3 =
      researchLeadsFull (fun _ => .ok "[1]") "dental practices" "Buckhead, Atlanta, GA" 10 ∧
    runPipeline "2024-01-01_00-00-00" (fun _ => .ok "[1]") (.error "e")
        "dental practices" "Buckhead, Atlanta, GA" 3 =
      runPipeline "2024-01-01_00-00-00" (fun _ => .ok "[1]") (.error "e")
        "dental practices" "Buckhead, Atlanta, GA" 10 :=
  lead_count_noninterference "2024-01-01_00-00-00" (fun _ => .ok "[1]") (.error "e")
    "dental practices" "Buckhead, Atlanta, GA" (fun _ _ => rfl)

/-! ## C10 -/

theorem getD_set_self_list (l : List (List (String × Json))) (i : Nat)
    (a : List (String × Json)) (h : i < l.length) :
    (l.set i a).getD i [] = a := by
  simp [List.getD, List.getElem?_set_self, h]

theorem getD_set_ne_list (l : List (List (String × Json))) (i j : Nat)
    (a : List (String × Json)) (h : j ≠ i) :
    (l.set i a).getD j [] = l.getD j [] := by
  simp [List.getD, List.getElem?_set_ne (fun hh => h hh.symm)]

theorem foldl_enrichAt_preserve (i : Nat) :
    ∀ (q : List Nat) (heap : List (List (String × Json))),
      (∀ j ∈ q, j ≠ i) →
      (q.foldl enrichAt heap).getD i [] = heap.getD i [] := by
  intro q
  induction q with
  | nil => intro heap _; rfl
  | cons j rest ih =>
    intro heap hq
    rw [List.foldl_cons]
    rw [ih (enrichAt heap j) (fun j' hj' => hq j' (List.mem_cons_of_mem _ hj'))]
    have hne : i ≠ j := Ne.symm (hq j (List.mem_cons_self _ _))
    simp only [enrichAt]
    exact getD_set_ne_list heap j i _ hne

theorem foldl_enrichAt_enriches (i : Nat) :
    ∀ (q : List Nat) (heap : List (List (String × Json))),
      (∀ j ∈ q, j < heap.length) → i ∈ q →
      ∃ f, (q.foldl enrichAt heap).getD i [] = enrichFields f := by
  intro q
  induction q with
  | nil => intro _ _ hi; exact absurd hi (List.not_mem_nil i)
  | cons j rest ih =>
    intro heap hlen hi
    rw [List.foldl_cons]
    by_cases hmem : i ∈ rest
    · exact ih (enrichAt heap j)
        (fun j' hj' => by
          have := hlen j' (List.mem_cons_of_mem _ hj')
          simpa [enrichAt, List.length_set] using this) hmem
    · have hij : i = j := by
        rcases List.mem_cons.mp hi with h | h
        · exact h
        · exact absurd h hmem
      subst hij
      refine ⟨heap.getD i [], ?_⟩
      rw [foldl_enrichAt_preserve i rest (enrichAt heap i)
        (fun j' hj' => fun hh => hmem (hh ▸ hj'))]
      simp only [enrichAt]
      exact getD_set_self_list heap i _ (hlen i (List.mem_cons_self _ _))

/-- C10: the analysis fallback builds `qualified_leads` as a shallow copy
of `leads` — the same record objects — and mutates those objects in place,
so after the fallback every record reachable through the research-stage
collection also carries the five constant enrichment fields. -/
theorem fallback_shallow_copy_aliasing (st : AnalysisState)
    (hw : ∀ j ∈ st.leads, j < st.heap.length) (i : Nat) (hi : i ∈ st.leads) :
    (fallbackEnrichState st).qualified = st.leads ∧
    lookupField ((fallbackEnrichState st).heap.getD i []) "score" = some (.num 4.2) ∧
    lookupField ((fallbackEnrichState st).heap.getD i []) "classification" =
      some (.str "High Value") ∧
    lookupField ((fallbackEnrichState st).heap.getD i []) "reasoning" =
      some (.str "Located in upscale area with complete contact information") ∧
    lookupField ((fallbackEnrichState st).heap.getD i []) "best_contact_method" =
      some (.str "Email") ∧
    lookupField ((fallbackEnrichState st).heap.getD i []) "personalized_note" =
      some (.str "Your facility's premium image would benefit from specialized cleaning services") := by
  obtain ⟨f, hf⟩ := foldl_enrichAt_enriches i st.leads st.heap hw hi
  have hf' : (fallbackEnrichState st).heap.getD i [] = enrichFields f := hf
  have h5 := enrichFields_lookups f
  exact ⟨rfl, by rw [hf']; exact h5.1, by rw [hf']; exact h5.2.1,
    by rw [hf']; exact h5.2.2.1, by rw [hf']; exact h5.2.2.2.1,
    by rw [hf']; exact h5.2.2.2.2⟩

/-- Witness for C10 at a concrete one-record state. -/
theorem fallback_shallow_copy_aliasing_witness :
    (fallbackEnrichState ⟨[[("business_name", Json.str "A")]], [0], []⟩).qualified = [0] ∧
    lookupField ((fallbackEnrichState ⟨[[("business_name", Json.str "A")]], [0], []⟩).heap.getD 0 [])
      "score" = some (.num 4.2) ∧
    lookupField ((fallbackEnrichState ⟨[[("business_name", Json.str "A")]], [0], []⟩).heap.getD 0 [])
      "classification" = some (.str "High Value") ∧
    lookupField ((fallbackEnrichState ⟨[[("business_name", Json.str "A")]], [0], []⟩).heap.getD 0 [])
      "reasoning" = some (.str "Located in upscale area with complete contact information") ∧
    lookupField ((fallbackEnrichState ⟨[[("business_name", Json.str "A")]], [0], []⟩).heap.getD 0 [])
      "best_contact_method" = some (.str "Email") ∧
    lookupField ((fallbackEnrichState ⟨[[("business_name", Json.str "A")]], [0], []⟩).heap.getD 0 [])
      "personalized_note" =
      some (.str "Your facility's premium image would benefit from specialized cleaning services") :=
  fallback_shallow_copy_aliasing ⟨[[("business_name", Json.str "A")]], [0], []⟩
    (by decide) 0 (by decide)

/-! ## C1: the regex-match-then-parse step -/

theorem dropWhile_head_class (p : Char → Bool) (l t : List Char) (b : Char)
    (h : l.dropWhile p = b :: t) : p b = false := by
  have hh := List.head?_dropWhile_not p l
  rw [h] at hh
  simpa using hh

theorem dropWhile_suffix_bracket (rest0 : List Char) :
    ∀ pre : List Char,
      ('[' :: rest0).IsSuffix
        (List.dropWhile (fun c => !(c = '[')) (pre ++ '[' :: rest0)) := by
  intro pre
  induction pre with
  | nil =>
    rw [List.nil_append, List.dropWhile_cons]
    simp
  | cons a pre' ih =>
    rw [List.cons_append, List.dropWhile_cons]
    by_cases ha : a = '['
    · rw [if_neg (by simp [ha])]
      exact ⟨a :: pre', rfl⟩
    · rw [if_pos (by simp [ha])]
      exact ih

theorem bracketSpan_decomp (cs m : List Char) (h : bracketSpan cs = some m) :
    ∃ pre post, cs = pre ++ m ++ post ∧ (∀ c ∈ pre, ¬(c = '[')) ∧
      (∀ c ∈ post, ¬(c = ']')) ∧ m.head? = some '[' ∧ m.getLast? = some ']' := by
  unfold bracketSpan at h
  cases h1 : List.dropWhile (fun c => !(c = '[')) cs with
  | nil => rw [h1] at h; simp at h
  | cons lb tail =>
    rw [h1] at h
    dsimp only at h
    cases h2 : List.dropWhile (fun c => !(c = ']')) tail.reverse with
    | nil => rw [h2] at h; simp at h
    | cons rb midRev =>
      rw [h2] at h
      dsimp only at h
      simp only [Option.some.injEq] at h
      subst h
      have hlb : lb = '[' := by
        have hh := dropWhile_head_class _ cs tail lb h1
        simpa using hh
      have hrb : rb = ']' := by
        have hh := dropWhile_head_class _ tail.reverse midRev rb h2
        simpa using hh
      refine ⟨cs.takeWhile (fun c => !(c = '[')),
        (tail.reverse.takeWhile (fun c => !(c = ']'))).reverse, ?_, ?_, ?_, ?_, ?_⟩
      · have h3 := List.takeWhile_append_dropWhile (p := fun c => !(c = ']')) (l := tail.reverse)
        rw [h2] at h3
        have htail : (rb :: midRev).reverse ++
            (List.takeWhile (fun c => !(c = ']')) tail.reverse).reverse = tail := by
          rw [← List.reverse_append, h3, List.reverse_reverse]
        have h4 := List.takeWhile_append_dropWhile (p := fun c => !(c = '[')) (l := cs)
        rw [h1] at h4
        calc cs = List.takeWhile (fun c => !(c = '[')) cs ++ lb :: tail := h4.symm
          _ = List.takeWhile (fun c => !(c = '[')) cs ++
              lb :: ((rb :: midRev).reverse ++
                (List.takeWhile (fun c => !(c = ']')) tail.reverse).reverse) := by
              rw [htail]
          _ = List.takeWhile (fun c => !(c = '[')) cs ++
              (lb :: (rb :: midRev).reverse) ++
              (List.takeWhile (fun c => !(c = ']')) tail.reverse).reverse := by
              simp
      · intro c hc
        have hp := List.mem_takeWhile_imp hc
        simpa using hp
      · intro c hc
        rw [List.mem_reverse] at hc
        have hp := List.mem_takeWhile_imp hc
        simpa using hp
      · simp [hlb]
      · have hsplit : lb :: (rb :: midRev).reverse = (lb :: midRev.reverse).concat rb := by
          simp [List.concat_eq_append]
        rw [hsplit, hrb, List.concat_eq_append]
        exact List.getLast?_concat _

theorem bracketSpan_none_no_region (cs : List Char) (h : bracketSpan cs = none) :
    ∀ pre mid post : List Char, cs ≠ pre ++ '[' :: (mid ++ ']' :: post) := by
  intro pre mid post hcs
  subst hcs
  unfold bracketSpan at h
  cases h1 : List.dropWhile (fun c => !(c = '[')) (pre ++ '[' :: (mid ++ ']' :: post)) with
  | nil =>
    rw [List.dropWhile_eq_nil_iff] at h1
    have hall := h1 '[' (by simp)
    simp at hall
  | cons lb tail =>
    rw [h1] at h
    dsimp only at h
    have hsuf := dropWhile_suffix_bracket (mid ++ ']' :: post) pre
    rw [h1] at hsuf
    have hmem : (']' : Char) ∈ lb :: tail := hsuf.subset (by simp)
    have hlb : lb = '[' := by
      have hh := dropWhile_head_class _ _ tail lb h1
      simpa using hh
    have hmem' : (']' : Char) ∈ tail := by
      rcases List.mem_cons.mp hmem with h' | h'
      · rw [hlb] at h'
        exact absurd h' (by decide)
      · exact h'
    cases h2 : List.dropWhile (fun c => !(c = ']')) tail.reverse with
    | nil =>
      rw [List.dropWhile_eq_nil_iff] at h2
      have hall := h2 ']' (List.mem_reverse.mpr hmem')
      simp at hall
    | cons rb midRev =>
      rw [h2] at h
      simp at h

/-- C1 (amended): the extraction step matches exactly the span from the
first `[` to the last `]` of the completion (nothing before the span
contains `[`, nothing after it contains `]`), and returns that span's
parsed content whenever the span parses as JSON; when no such span exists
the raw completion is parsed unchanged, so failure is signalled exactly
when the raw text itself is not valid JSON. -/
theorem extractor_span_parse :
    (∀ cs m, bracketSpan cs = some m →
      ∃ pre post, cs = pre ++ m ++ post ∧ (∀ c ∈ pre, ¬(c = '[')) ∧
        (∀ c ∈ post, ¬(c = ']')) ∧ m.head? = some '[' ∧ m.getLast? = some ']') ∧
    (∀ cs, bracketSpan cs = none →
      ∀ pre mid post : List Char, cs ≠ pre ++ '[' :: (mid ++ ']' :: post)) ∧
    (∀ (s : String) (m : List Char) (v : Json),
      bracketSpan s.data = some m → json_loads (String.mk m) = some v →
      loadsAfterExtract s = some v) ∧
    (∀ s : String, bracketSpan s.data = none → loadsAfterExtract s = json_loads s) := by
  refine ⟨bracketSpan_decomp, bracketSpan_none_no_region, ?_, ?_⟩
  · intro s m v h1 h2
    simp [loadsAfterExtract, h1, h2]
  · intro s h1
    simp [loadsAfterExtract, h1]

/-- Witness for C1 (amended) at a concrete completion containing one
bracketed array surrounded by noise. -/
theorem extractor_span_parse_witness :
    bracketSpan "noise [1, 2] tail".data = some "[1, 2]".data ∧
    loadsAfterExtract "noise [1, 2] tail" = some (Json.arr [Json.num 1, Json.num 2]) :=
  ⟨by decide, extractor_span_parse.2.2.1 "noise [1, 2] tail" "[1, 2]".data
    (Json.arr [Json.num 1, Json.num 2]) (by decide) (by decide)⟩

/-- Counterexample to C1 as stated: the completion "null" has no bracketed
region yet the step succeeds (`json.loads` accepts the raw text, so the
caller installs no fallback), and the completion "[1] a [2]" contains the
well-formed bracketed array "[1]" yet the step fails, because the greedy
match spans from the first `[` to the last `]`. -/
theorem extractor_claim_counterexample :
    (bracketSpan "null".data = none ∧ loadsAfterExtract "null" = some Json.null) ∧
    (bracketSpan "[1] a [2]".data = some "[1] a [2]".data ∧
      json_loads "[1]" = some (Json.arr [Json.num 1]) ∧
      loadsAfterExtract "[1] a [2]" = none) :=
  ⟨⟨by decide, by decide⟩, by decide, by decide, by decide⟩

/-! ## C8 -/

/-- C8: with the inference outcomes held fixed, two pipeline runs agree on
the research records and the qualified records, and produce the same
sorted table; the exported bytes decompose as timestamp metadata followed
by a table serialization that is identical across the two runs, and the
filename differs only through the timestamp — i.e. the runs are
byte-identical except for the embedded timestamp. -/
theorem pipeline_determinism_modulo_timestamp
    (ts₁ ts₂ : String) (client : String → Except String String)
    (analysisResp : Except String String) (industry location : String) (numLeads : Nat) :
    (runPipeline ts₁ client analysisResp industry location numLeads).1 =
      (runPipeline ts₂ client analysisResp industry location numLeads).1 ∧
    ((runPipeline ts₁ client analysisResp industry location numLeads).2 = none ∧
      (runPipeline ts₂ client analysisResp industry location numLeads).2 = none ∨
     (∃ q, (runPipeline ts₁ client analysisResp industry location numLeads).2 =
          some (q, emptyOutcome) ∧
        (runPipeline ts₂ client analysisResp industry location numLeads).2 =
          some (q, emptyOutcome)) ∨
     (∃ q df,
        (runPipeline ts₁ client analysisResp industry location numLeads).2 =
          some (q, successOutcome ts₁ df) ∧
        (runPipeline ts₂ client analysisResp industry location numLeads).2 =
          some (q, successOutcome ts₂ df) ∧
        (successOutcome ts₁ df).written =
          [(excelFileName ts₁, tsBytes ts₁ ++ byteClamp (dfBytes df))] ∧
        (successOutcome ts₂ df).written =
          [(excelFileName ts₂, tsBytes ts₂ ++ byteClamp (dfBytes df))])) := by
  simp only [runPipeline]
  cases hq : analyzeAndScoreLeads analysisResp
      (researchLeadsFull client industry location numLeads) with
  | none => exact ⟨rfl, Or.inl ⟨rfl, rfl⟩⟩
  | some q =>
    refine ⟨rfl, ?_⟩
    simp only [prepareSpreadsheet]
    cases hdf : exportCore q with
    | none => exact Or.inr (Or.inl ⟨q, rfl, rfl⟩)
    | some df => exact Or.inr (Or.inr ⟨q, df, rfl, rfl, rfl, rfl⟩)

/-! ## C7: shape of a successful export -/

theorem splitNa_perm (i : Nat) :
    ∀ (rows : List (List (Option Json)))
      (keyed : List (SortKey × List (Option Json))) (nas : List (List (Option Json))),
      splitNa i rows = some (keyed, nas) →
      List.Perm (keyed.map (fun p => p.2) ++ nas) rows := by
  intro rows
  induction rows with
  | nil =>
    intro keyed nas h
    simp only [splitNa, Option.some.injEq, Prod.mk.injEq] at h
    obtain ⟨rfl, rfl⟩ := h
    simp
  | cons r rs ih =>
    intro keyed nas h
    simp only [splitNa] at h
    cases hrec : splitNa i rs with
    | none => rw [hrec] at h; simp at h
    | some p =>
      obtain ⟨ks, nas'⟩ := p
      rw [hrec] at h
      dsimp only at h
      cases hck : cellKey (r.getD i none) with
      | none => rw [hck] at h; simp at h
      | some ko =>
        rw [hck] at h
        cases ko with
        | none =>
          dsimp only at h
          simp only [Option.some.injEq, Prod.mk.injEq] at h
          obtain ⟨rfl, rfl⟩ := h
          exact List.perm_middle.trans ((ih ks nas' hrec).cons r)
        | some k =>
          dsimp only at h
          simp only [Option.some.injEq, Prod.mk.injEq] at h
          obtain ⟨rfl, rfl⟩ := h
          simpa using (ih ks nas' hrec).cons r

theorem sortDF_shape (df df' : DataFrame) (h : sortDF df = some df') :
    df'.cols = df.cols ∧ List.Perm df'.rows df.rows := by
  unfold sortDF at h
  cases h1 : df.cols.findIdx? (fun c => c = "score") with
  | none => rw [h1] at h; simp at h
  | some i =>
    rw [h1] at h
    dsimp only at h
    cases h2 : splitNa i df.rows with
    | none => rw [h2] at h; simp at h
    | some p =>
      obtain ⟨keyed, nas⟩ := p
      rw [h2] at h
      dsimp only at h
      by_cases h3 : uniformKind keyed = true
      · rw [if_pos h3] at h
        simp only [Option.some.injEq] at h
        subst h
        refine ⟨rfl, ?_⟩
        have hp1 : List.Perm ((List.insertionSort rowRel keyed).map (fun p => p.2))
            (keyed.map (fun p => p.2)) := (List.perm_insertionSort rowRel keyed).map _
        exact (hp1.append_right nas).trans (splitNa_perm i df.rows keyed nas h2)
      · rw [if_neg h3] at h
        simp at h

theorem toDataFrame_records (q : Json) (recs : List (List (String × Json)))
    (h : asRecordList q = some recs) :
    toDataFrame q = some ⟨unionCols recs, recs.map (recordRow (unionCols recs))⟩ := by
  simp [toDataFrame, h]

theorem addKeys_cons (cols : List String) (p : String × Json)
    (rest : List (String × Json)) :
    addKeys cols (p :: rest) = addKeys (if p.1 ∈ cols then cols else cols ++ [p.1]) rest := rfl

theorem mem_addKeys (x : String) :
    ∀ (fields : List (String × Json)) (cols : List String),
      x ∈ addKeys cols fields ↔ x ∈ cols ∨ ∃ p ∈ fields, p.1 = x := by
  intro fields
  induction fields with
  | nil => intro cols; simp [addKeys]
  | cons p rest ih =>
    intro cols
    rw [addKeys_cons, ih]
    by_cases hp : p.1 ∈ cols
    · rw [if_pos hp]
      constructor
      · rintro (h | ⟨p', hp', rfl⟩)
        · exact Or.inl h
        · exact Or.inr ⟨p', List.mem_cons_of_mem _ hp', rfl⟩
      · rintro (h | ⟨p', hp', rfl⟩)
        · exact Or.inl h
        · rcases List.mem_cons.mp hp' with rfl | hmem
          · exact Or.inl hp
          · exact Or.inr ⟨p', hmem, rfl⟩
    · rw [if_neg hp]
      constructor
      · rintro (h | ⟨p', hp', rfl⟩)
        · rcases List.mem_append.mp h with h' | h'
          · exact Or.inl h'
          · simp only [List.mem_singleton] at h'
            exact Or.inr ⟨p, List.mem_cons_self _ _, h'.symm⟩
        · exact Or.inr ⟨p', List.mem_cons_of_mem _ hp', rfl⟩
      · rintro (h | ⟨p', hp', rfl⟩)
        · exact Or.inl (List.mem_append.mpr (Or.inl h))
        · rcases List.mem_cons.mp hp' with rfl | hmem
          · exact Or.inl (List.mem_append.mpr (Or.inr (by simp)))
          · exact Or.inr ⟨p', hmem, rfl⟩

theorem mem_unionCols_aux (x : String) :
    ∀ (recs : List (List (String × Json))) (cols : List String),
      x ∈ recs.foldl addKeys cols ↔ x ∈ cols ∨ ∃ rec ∈ recs, ∃ p ∈ rec, p.1 = x := by
  intro recs
  induction recs with
  | nil => intro cols; simp
  | cons rec rest ih =>
    intro cols
    rw [List.foldl_cons, ih, mem_addKeys]
    constructor
    · rintro ((h | ⟨p, hp, rfl⟩) | ⟨rec', hrec', p, hp, rfl⟩)
      · exact Or.inl h
      · exact Or.inr ⟨rec, List.mem_cons_self _ _, p, hp, rfl⟩
      · exact Or.inr ⟨rec', List.mem_cons_of_mem _ hrec', p, hp, rfl⟩
    · rintro (h | ⟨rec', hrec', p, hp, rfl⟩)
      · exact Or.inl (Or.inl h)
      · rcases List.mem_cons.mp hrec' with rfl | hmem
        · exact Or.inl (Or.inr ⟨p, hp, rfl⟩)
        · exact Or.inr ⟨rec', hmem, p, hp, rfl⟩

theorem mem_unionCols (x : String) (recs : List (List (String × Json))) :
    x ∈ unionCols recs ↔ ∃ rec ∈ recs, ∃ p ∈ rec, p.1 = x := by
  rw [unionCols, mem_unionCols_aux]
  simp

theorem byteClamp_lt (l : List Nat) : ∀ b ∈ byteClamp l, b < 256 := by
  intro b hb
  rcases List.mem_map.mp hb with ⟨a, -, rfl⟩
  exact Nat.mod_lt _ (by omega)

theorem toExcelBytes_lt (ts : String) (df : DataFrame) :
    ∀ b ∈ toExcelBytes ts df, b < 256 := by
  intro b hb
  rcases List.mem_append.mp hb with h | h
  · exact byteClamp_lt _ b h
  · exact byteClamp_lt _ b h

theorem sextetVal_sextetChar : ∀ v < 64, sextetVal (sextetChar v) = some v := by decide

theorem sextetChar_ne_pad : ∀ v < 64, ¬(sextetChar v = '=') := by decide

theorem b64_roundtrip : ∀ bs : List Nat, (∀ b ∈ bs, b < 256) →
    b64decode (b64encode bs) = bs := by
  intro bs
  induction bs using b64encode.induct with
  | case1 => intro _; rfl
  | case2 a =>
    intro h
    have ha : a < 256 := h a (by simp)
    simp only [b64encode, b64decode]
    rw [sextetVal_sextetChar (a / 4) (by omega), sextetVal_sextetChar (a % 4 * 16) (by omega)]
    dsimp only
    simp only [if_true, List.cons.injEq, and_true]
    omega
  | case3 a b =>
    intro h
    have ha : a < 256 := h a (by simp)
    have hb : b < 256 := h b (by simp)
    simp only [b64encode, b64decode]
    rw [sextetVal_sextetChar (a / 4) (by omega),
      sextetVal_sextetChar (a % 4 * 16 + b / 16) (by omega)]
    dsimp only
    rw [if_neg (sextetChar_ne_pad (b % 16 * 4) (by omega))]
    rw [sextetVal_sextetChar (b % 16 * 4) (by omega)]
    dsimp only
    simp only [if_true, List.cons.injEq, and_true]
    omega
  | case4 a b c rest ih =>
    intro h
    have ha : a < 256 := h a (by simp)
    have hb : b < 256 := h b (by simp)
    have hc : c < 256 := h c (by simp)
    simp only [b64encode, b64decode]
    rw [sextetVal_sextetChar (a / 4) (by omega),
      sextetVal_sextetChar (a % 4 * 16 + b / 16) (by omega)]
    dsimp only
    rw [if_neg (sextetChar_ne_pad (b % 16 * 4 + c / 64) (by omega))]
    rw [sextetVal_sextetChar (b % 16 * 4 + c / 64) (by omega)]
    dsimp only
    rw [if_neg (sextetChar_ne_pad (c % 64) (by omega))]
    rw [sextetVal_sextetChar (c % 64) (by omega)]
    dsimp only
    have hrest := ih (fun x hx => h x (by simp [hx]))
    rw [hrest]
    simp only [List.cons.injEq, and_true]
    refine ⟨by omega, by omega, by omega⟩

/-- C7: on every lead collection on which export succeeds, the file is
named `qualified_leads_<timestamp>.xlsx`, the table has one row per lead
and its columns are exactly the union of the fields present across the
leads, and the link embeds a base64 payload whose decoding is exactly the
written file's bytes. -/
theorem export_success_shape
    (ts : String) (q : Json) (recs : List (List (String × Json))) (df : DataFrame)
    (hrecs : asRecordList q = some recs) (hsort : exportCore q = some df) :
    prepareSpreadsheet ts q = successOutcome ts df ∧
    (successOutcome ts df).written =
      [("qualified_leads_" ++ ts ++ ".xlsx", toExcelBytes ts df)] ∧
    df.rows.length = recs.length ∧
    (∀ f, f ∈ df.cols ↔ ∃ rec ∈ recs, ∃ p ∈ rec, p.1 = f) ∧
    (successOutcome ts df).result =
      some (hrefOf (excelFileName ts) (String.mk (b64encode (toExcelBytes ts df)))) ∧
    b64decode (b64encode (toExcelBytes ts df)) = toExcelBytes ts df := by
  have hdf0 : sortDF ⟨unionCols recs, recs.map (recordRow (unionCols recs))⟩ = some df := by
    have htd := toDataFrame_records q recs hrecs
    unfold exportCore at hsort
    rw [htd] at hsort
    simpa using hsort
  obtain ⟨hcols, hperm⟩ := sortDF_shape _ _ hdf0
  refine ⟨?_, rfl, ?_, ?_, rfl, b64_roundtrip _ (toExcelBytes_lt ts df)⟩
  · simp [prepareSpreadsheet, hsort]
  · rw [hperm.length_eq]
    simp
  · intro f
    rw [show df.cols = unionCols recs from hcols]
    exact mem_unionCols f recs

/-- Witness for C7 at a concrete one-record collection that exports
successfully. -/
theorem export_success_shape_witness :
    prepareSpreadsheet "T" (Json.arr [Json.obj [("score", Json.num 1)]]) =
      successOutcome "T" ⟨["score"], [[some (Json.num 1)]]⟩ ∧
    (successOutcome "T" (⟨["score"], [[some (Json.num 1)]]⟩ : DataFrame)).written =
      [("qualified_leads_" ++ "T" ++ ".xlsx",
        toExcelBytes "T" ⟨["score"], [[some (Json.num 1)]]⟩)] ∧
    (⟨["score"], [[some (Json.num 1)]]⟩ : DataFrame).rows.length =
      [[(("score" : String), Json.num 1)]].length ∧
    (∀ f, f ∈ (⟨["score"], [[some (Json.num 1)]]⟩ : DataFrame).cols ↔
      ∃ rec ∈ [[(("score" : String), Json.num 1)]], ∃ p ∈ rec, p.1 = f) ∧
    (successOutcome "T" (⟨["score"], [[some (Json.num 1)]]⟩ : DataFrame)).result =
      some (hrefOf (excelFileName "T")
        (String.mk (b64encode (toExcelBytes "T" ⟨["score"], [[some (Json.num 1)]]⟩)))) ∧
    b64decode (b64encode (toExcelBytes "T" ⟨["score"], [[some (Json.num 1)]]⟩)) =
      toExcelBytes "T" ⟨["score"], [[some (Json.num 1)]]⟩ :=
  export_success_shape "T" (Json.arr [Json.obj [("score", Json.num 1)]])
    [[("score", Json.num 1)]] ⟨["score"], [[some (Json.num 1)]]⟩ rfl (by decide)

end LeadGen
